import Mathlib

/-!
# A verification model of `dbarray` (array stored in a key-value database)

Shallow embedding of the two source modules of the repository:

* `storage.py` — backend adapters (`StorageLevelDB`, `StorageLMDB`) over a
  key-value engine: `set`/`get` plus the static `is_valid` probe and the
  LMDB class-level handle cache `DB_MAP`.
* `dbarray.py` — the `DBArray` logical 2-D array: shape/dtype metadata,
  row encoding (`struct.pack('q', rid)` keys), range/selection addressing
  (`_parse_key_core`), and tag-prefixed attribute encoding
  (`set_db_attr`/`get_db_attr`).

Python 2 byte strings are modelled as `List Nat` (`Bytes`); the backing
key-value store is an association list with the newest binding first, so
`set` is a prepend and `get` takes the most recent binding, which realizes
overwrite semantics.  `struct.pack('q', ·)` is the 8-byte little-endian
two's-complement encoding (native byte order on the x86 machines the
library targets).
-/

/-- A Python 2 byte string: a list of byte values. -/
abbrev Bytes : Type := List Nat

/-- The bytes of an ASCII string literal (Python 2 `str` is a byte string). -/
def strB (s : String) : Bytes := s.toList.map Char.toNat

/-- State of one backend key-value database: an association list, newest
binding first. -/
abbrev Store : Type := List (Bytes × Bytes)

/-- Engine `put`: create or overwrite the binding for `k`. -/
def storeSet (s : Store) (k v : Bytes) : Store := (k, v) :: s

/-- Engine lookup: the most recent binding for `k`, if any. -/
def storeGet (s : Store) (k : Bytes) : Option Bytes :=
  (s.find? (fun p => p.1 == k)).map (·.2)

theorem storeGet_set_self (s : Store) (k v : Bytes) :
    storeGet (storeSet s k v) k = some v := by
  simp [storeGet, storeSet, List.find?_cons]

theorem storeGet_set_ne (s : Store) (k k' v : Bytes) (h : k ≠ k') :
    storeGet (storeSet s k v) k' = storeGet s k' := by
  simp only [storeGet, storeSet, List.find?_cons]
  have : (k == k') = false := beq_false_of_ne h
  simp [this]

/-! ## Fixed-width integer encoding (`struct.pack`/`unpack` with format `'q'`)

`PACK_NUM_TYPE = 'q'`: an 8-byte signed integer, little-endian
(native order on the library's target platforms). -/

/-- Little-endian base-256 digits, `k` bytes. -/
def natToBytesLE : Nat → Nat → Bytes
  | 0, _ => []
  | k + 1, u => u % 256 :: natToBytesLE k (u / 256)

/-- Value of a little-endian base-256 digit list. -/
def bytesToNatLE : Bytes → Nat
  | [] => 0
  | d :: rest => d + 256 * bytesToNatLE rest

/-- Model of `struct.pack(PACK_NUM_TYPE, n)`: the 8-byte two's-complement
little-endian encoding of `n`. -/
def pack (n : Int) : Bytes := natToBytesLE 8 ((n % 2 ^ 64).toNat)

/-- Model of `struct.unpack(PACK_NUM_TYPE, b)[0]`: decode 8 bytes as a signed
integer; `struct.error` (modelled `none`) unless exactly 8 bytes. -/
def unpack (b : Bytes) : Option Int :=
  if b.length = 8 then
    let u := bytesToNatLE b
    some (if u < 2 ^ 63 then (u : Int) else (u : Int) - 2 ^ 64)
  else none

theorem natToBytesLE_length (k u : Nat) : (natToBytesLE k u).length = k := by
  induction k generalizing u with
  | zero => rfl
  | succ k ih => simp [natToBytesLE, ih]

theorem bytesToNatLE_natToBytesLE (k u : Nat) :
    bytesToNatLE (natToBytesLE k u) = u % 256 ^ k := by
  induction k generalizing u with
  | zero => simp [natToBytesLE, bytesToNatLE, pow_zero, Nat.mod_one]
  | succ k ih =>
      simp only [natToBytesLE, bytesToNatLE, ih]
      rw [pow_succ, mul_comm (256 ^ k) 256, Nat.mod_mul]

theorem pack_length (n : Int) : (pack n).length = 8 := natToBytesLE_length _ _

theorem unpack_pack (n : Int) (h0 : -(2 ^ 63) ≤ n) (h1 : n < 2 ^ 63) :
    unpack (pack n) = some n := by
  have hlen : (pack n).length = 8 := pack_length n
  have hval : bytesToNatLE (pack n) = (n % 2 ^ 64).toNat % 256 ^ 8 :=
    bytesToNatLE_natToBytesLE 8 _
  have hpow : (256 : Nat) ^ 8 = 2 ^ 64 := by norm_num
  have hmodlt : n % 2 ^ 64 < 2 ^ 64 :=
    Int.emod_lt_of_pos n (by norm_num)
  have hmodge : 0 ≤ n % 2 ^ 64 :=
    Int.emod_nonneg n (by norm_num)
  have hlit64 : (2 : Int) ^ 64 = 18446744073709551616 := by norm_num
  have hlit64n : (2 : Nat) ^ 64 = 18446744073709551616 := by norm_num
  have hlit63n : (2 : Nat) ^ 63 = 9223372036854775808 := by norm_num
  have hlit63 : (2 : Int) ^ 63 = 9223372036854775808 := by norm_num
  rw [hlit64] at hmodlt hmodge
  rw [hlit63] at h0 h1
  have hval' : bytesToNatLE (pack n) = (n % 18446744073709551616).toNat := by
    rw [hval, hpow, hlit64, hlit64n]
    apply Nat.mod_eq_of_lt
    omega
  rw [unpack, if_pos hlen]
  simp only [hval', Option.some_inj, hlit63n, hlit64]
  clear hval hpow hlen hval' hlit64 hlit64n hlit63 hlit63n
  split_ifs <;> omega

theorem pack_injOn (a b : Int)
    (ha0 : -(2 ^ 63) ≤ a) (ha1 : a < 2 ^ 63)
    (hb0 : -(2 ^ 63) ≤ b) (hb1 : b < 2 ^ 63)
    (h : pack a = pack b) : a = b := by
  have := unpack_pack a ha0 ha1
  have hb := unpack_pack b hb0 hb1
  rw [h, hb] at this
  exact (Option.some.injEq .. ▸ this).symm

/-! ## Rows (`DBArray.get_row` / `DBArray.set_row`) -/

namespace DBArray

/-- Model of `DBArray.set_row`: `self._storage.set(pack(PACK_NUM_TYPE, rid), arr.data)` —
the row's raw element bytes are stored under the packed row id. -/
def set_row (s : Store) (rid : Int) (buf : Bytes) : Store :=
  storeSet s (pack rid) buf

/-- View a byte buffer as `n` consecutive elements of width `w` each —
how `np.ndarray(n, dtype, buf)` views a buffer of `n` items of
itemsize `w`. -/
def splitElems (w : Nat) : Nat → Bytes → List Bytes
  | 0, _ => []
  | n + 1, b => b.take w :: splitElems w n (b.drop w)

/-- Model of `DBArray.get_row`: `np.ndarray(self.ncols, self.dtype,
self._storage.get(pack(PACK_NUM_TYPE, rid)))`.  `none` covers the failure
cases: missing key, or a stored buffer whose size does not match `ncols`
elements of itemsize `w` (numpy raises on a size mismatch). -/
def get_row (ncols w : Nat) (s : Store) (rid : Int) : Option (List Bytes) :=
  match storeGet s (pack rid) with
  | none => none
  | some b => if b.length = ncols * w then some (splitElems w ncols b) else none

theorem splitElems_length (w n : Nat) (b : Bytes) :
    (splitElems w n b).length = n := by
  induction n generalizing b with
  | zero => rfl
  | succ n ih => simp [splitElems, ih]

theorem splitElems_flatten (w n : Nat) (b : Bytes) (h : b.length = n * w) :
    (splitElems w n b).flatten = b := by
  induction n generalizing b with
  | zero =>
      have : b = [] := List.length_eq_zero.mp (by simpa using h)
      simp [this, splitElems]
  | succ n ih =>
      have hdrop : (b.drop w).length = n * w := by
        rw [List.length_drop, h, Nat.succ_mul]; omega
      simp only [splitElems, List.flatten_cons, ih _ hdrop]
      exact List.take_append_drop w b

theorem splitElems_elem_length (w n : Nat) (b : Bytes) (h : b.length = n * w) :
    ∀ e ∈ splitElems w n b, e.length = w := by
  induction n generalizing b with
  | zero => simp [splitElems]
  | succ n ih =>
      simp only [splitElems, List.forall_mem_cons]
      constructor
      · rw [List.length_take, h, Nat.succ_mul]
        omega
      · exact ih _ (by rw [List.length_drop, h, Nat.succ_mul]; omega)

theorem splitElems_of_flatten (w : Nat) (l : List Bytes)
    (h : ∀ e ∈ l, e.length = w) :
    splitElems w l.length l.flatten = l := by
  induction l with
  | nil => rfl
  | cons e l ih =>
      have he : e.length = w := h e (by simp)
      simp only [List.length_cons, List.flatten_cons, splitElems]
      rw [← he, List.take_left, List.drop_left, he,
        ih (fun x hx => h x (by simp [hx]))]

/-- **C3**. For every valid shape `(nrows, ncols)`, element width `w`,
`rid ∈ [0, nrows)` and buffer of `ncols` elements (`ncols * w` bytes),
`set_row rid buf` followed by `get_row rid` returns the row decoded from
exactly the written buffer, and its bytes are bit-identical to `buf`. -/
theorem set_row_get_row_roundtrip (nrows ncols w : Nat) (s : Store)
    (rid : Int) (buf : Bytes)
    (h0 : 0 ≤ rid) (h1 : rid < (nrows : Int)) (hbuf : buf.length = ncols * w) :
    get_row ncols w (set_row s rid buf) rid = some (splitElems w ncols buf) ∧
    (splitElems w ncols buf).flatten = buf := by
  constructor
  · simp [get_row, set_row, storeGet_set_self, hbuf]
  · exact splitElems_flatten w ncols buf hbuf

/-- Witness for C3 at `nrows = 1`, `ncols = 2`, `w = 1`, `rid = 0`,
`buf = [7, 9]` on the empty store. -/
theorem set_row_get_row_roundtrip_witness :
    get_row 2 1 (set_row [] 0 [7, 9]) 0 = some (splitElems 1 2 [7, 9]) ∧
    (splitElems 1 2 [7, 9]).flatten = [7, 9] :=
  set_row_get_row_roundtrip 1 2 1 [] 0 [7, 9] (by decide) (by decide) (by decide)

/-! ## Selection addressing (`DBArray._parse_key_core`, `DBArray.get_rows`) -/

/-- A Python array-index key as accepted by `_parse_key_core`:
an `int`/`long`, a `slice`, a `list` of indices, or anything else
(the invalid case). -/
inductive PyKey where
  | int (n : Int)
  | slice (start stop step : Option Int)
  | list (l : List Int)
  | other

/-- Fuel-driven unfolding of Python 2 `range`; the fuel in `pyRange` is
always sufficient, so this matches `range(start, stop, step)` exactly. -/
def pyRangeAux (step stop : Int) : Nat → Int → List Int
  | 0, _ => []
  | fuel + 1, cur =>
      if (0 < step ∧ cur < stop) ∨ (step < 0 ∧ stop < cur) then
        cur :: pyRangeAux step stop fuel (cur + step)
      else []

/-- Python 2 `range(start, stop, step)` as a list of integers. -/
def pyRange (start stop step : Int) : List Int :=
  pyRangeAux step stop ((stop - start).natAbs + 1) start

/-- Model of `DBArray._parse_key_core(key, stop)`: an `int` becomes a singleton, a
`slice` becomes `range(start or 0, stop or bound, step or 1)`, a `list` is
returned as is; any other key logs a warning and yields `None`. -/
def parse_key_core (key : PyKey) (stop : Int) : Option (List Int) :=
  match key with
  | .int n => some [n]
  | .slice st sp stp =>
      some (pyRange (st.getD 0) (sp.getD stop) (stp.getD 1))
  | .list l => some l
  | .other => none

/-- Model of `DBArray.get_rows`: read each requested row id, in selection order,
into a fresh matrix.  `none` models a failing `get_row` aborting the
loop. -/
def get_rows (ncols w : Nat) (s : Store) : List Int → Option (List (List Bytes))
  | [] => some []
  | r :: rs =>
      match get_row ncols w s r, get_rows ncols w s rs with
      | some row, some rest => some (row :: rest)
      | _, _ => none

theorem get_rows_eq_map (ncols w : Nat) (s : Store) (f : Int → List Bytes) :
    ∀ l : List Int, (∀ r ∈ l, get_row ncols w s r = some (f r)) →
      get_rows ncols w s l = some (l.map f) := by
  intro l h
  induction l with
  | nil => rfl
  | cons r rs ih =>
      have hr : get_row ncols w s r = some (f r) := h r (by simp)
      have hrs := ih (fun x hx => h x (by simp [hx]))
      simp [get_rows, hr, hrs]

theorem pyRangeAux_one (stop : Int) (fuel : Nat) :
    ∀ cur : Int, (stop - cur).toNat ≤ fuel →
      pyRangeAux 1 stop fuel cur =
        (List.range (stop - cur).toNat).map (fun i : Nat => cur + (i : Int)) := by
  induction fuel with
  | zero =>
      intro cur h
      have : (stop - cur).toNat = 0 := by omega
      simp [pyRangeAux, this]
  | succ fuel ih =>
      intro cur h
      by_cases hlt : cur < stop
      · have hcond : (0 < (1 : Int) ∧ cur < stop) ∨ ((1 : Int) < 0 ∧ stop < cur) := by
          left; exact ⟨by norm_num, hlt⟩
        have hk : (stop - cur).toNat = (stop - (cur + 1)).toNat + 1 := by omega
        rw [pyRangeAux, if_pos hcond, ih (cur + 1) (by omega), hk,
          List.range_succ_eq_map, List.map_cons, List.map_map]
        congr 1
        · simp
        · apply List.map_congr_left
          intro i _
          simp only [Function.comp_apply]
          omega
      · have hcond : ¬ ((0 < (1 : Int) ∧ cur < stop) ∨ ((1 : Int) < 0 ∧ stop < cur)) := by
          push_neg
          constructor
          · intro _; omega
          · intro h1; norm_num at h1
        have : (stop - cur).toNat = 0 := by omega
        rw [pyRangeAux, if_neg hcond, this]
        simp

/-- Python `range(a, b)` (step 1) is exactly `a, a+1, …, b-1`. -/
theorem pyRange_one (a b : Int) :
    pyRange a b 1 = (List.range (b - a).toNat).map (fun i : Nat => a + (i : Int)) :=
  pyRangeAux_one b ((b - a).natAbs + 1) a (by omega)

/-- **C5**.  For an array whose rows are all populated: the stepped range
selection `[a:b]` parses to exactly the ids `a, a+1, …, b-1`; omitted
slice fields default to `start = 0`, `step = 1`, `stop =` the declared
bound; reading those ids with `get_rows` equals the individual `get_row`
results for rows `a … b-1` in order; and reading an explicit index list
equals the individually-read rows in exactly the listed order. -/
theorem selection_equivalence (ncols w : Nat) (s : Store) (nrows a b : Int)
    (f : Int → List Bytes) :
    (parse_key_core (.slice (some a) (some b) none) nrows =
        some (pyRange a b 1)) ∧
    (parse_key_core (.slice none none none) nrows =
        some (pyRange 0 nrows 1)) ∧
    (pyRange a b 1 = (List.range (b - a).toNat).map (fun i : Nat => a + (i : Int))) ∧
    ((∀ r ∈ pyRange a b 1, get_row ncols w s r = some (f r)) →
        get_rows ncols w s (pyRange a b 1) = some ((pyRange a b 1).map f)) ∧
    (∀ l : List Int, (∀ r ∈ l, get_row ncols w s r = some (f r)) →
        get_rows ncols w s l = some (l.map f)) := by
  refine ⟨rfl, rfl, pyRange_one a b, ?_, ?_⟩
  · exact get_rows_eq_map ncols w s f (pyRange a b 1)
  · exact get_rows_eq_map ncols w s f

/-- Witness for C5: a 3-row, 1-column store with byte rows `[5]`, `[6]`,
`[7]`; the range selection `[1:3]` reads rows 1 and 2 in order. -/
theorem selection_equivalence_witness :
    get_rows 1 1 (set_row (set_row (set_row [] 0 [5]) 1 [6]) 2 [7])
        (pyRange 1 3 1) =
      some ((pyRange 1 3 1).map (fun r => [[(5 + r).toNat]])) :=
  (selection_equivalence 1 1 (set_row (set_row (set_row [] 0 [5]) 1 [6]) 2 [7])
      3 1 3 (fun r => [[(5 + r).toNat]])).2.2.2.1 (by decide)

end DBArray

/-! ## Attributes (`DBArray.set_db_attr` / `DBArray.get_db_attr`) -/

namespace DBArray

/-- Observable Python-level failures of the attribute and metadata
operations. -/
inductive DBErr where
  /-- The engine raised on a missing key (`KeyError` from LevelDB). -/
  | keyNotFound
  /-- A Python `TypeError` — in particular the one `set_db_attr` raises
  for an unsupported attribute value type. -/
  | typeError
  /-- A `struct.error` from `unpack` on a wrong-sized buffer. -/
  | structError
  /-- The `raise` hit by `get_db_attr` on an unrecognized leading tag. -/
  | unknownAttributeType
  /-- Embedding artifact: recursion fuel exhausted (never happens on a
  store written by `set_db_attr`). -/
  | outOfFuel
  /-- A generic `raise Exception(...)` in the source. -/
  | raisedException
deriving DecidableEq

/-- A Python value passed to `set_db_attr`.  `nda` is a `numpy.ndarray`,
represented by its dtype name (canonical: `np.dtype(name).name = name`
for canonical numpy type names) and its raw bytes (`val.tostring()`);
`intv` is a Python `int`; `strv` a Python 2 `str` (a byte string);
`floatv` stands for any value of a type other than the three supported
ones — in particular a bare `float` scalar. -/
inductive AttrVal where
  | nda (dtypeName : Bytes) (payload : Bytes)
  | intv (n : Int)
  | strv (b : Bytes)
  | floatv
deriving DecidableEq

/-- Model of `DBArray.set_db_attr(key, val)`.  The result pairs the
control outcome (`.error` models the raised `TypeError`) with the store
visible afterwards.  An `ndarray` first persists its dtype name under
`key + "_dtype"` (through the recursive `set_db_attr` call, which takes
the string branch), then stores `"nda" + val.tostring()` under `key`; an
`int` stores `"int" + pack(val)`; a `str` stores `"str" + val`; any other
value raises `TypeError` before touching storage. -/
def set_db_attr (s : Store) (key : Bytes) (v : AttrVal) :
    Except DBErr Unit × Store :=
  match v with
  | .nda dn payload =>
      let s1 := storeSet s (key ++ strB "_dtype") (strB "str" ++ dn)
      (.ok (), storeSet s1 key (strB "nda" ++ payload))
  | .intv n => (.ok (), storeSet s key (strB "int" ++ pack n))
  | .strv b => (.ok (), storeSet s key (strB "str" ++ b))
  | .floatv => (.error .typeError, s)

/-- Model of `DBArray.get_db_attr(key)`, with a recursion-depth fuel:
the source recurses on `key + "_dtype"` when the stored value carries the
`"nda"` tag, and on any store written by `set_db_attr` that recursion is
at most one level deep, so any fuel `≥ 2` is exact there.  Tag dispatch
compares the first three stored bytes (`rawval[:3]`); a missing key is
the engine's key-not-found failure; an unrecognized tag hits the `raise`
in the final branch.  A companion value that is not a string makes
`np.dtype` fail (modelled `typeError`). -/
def get_db_attr_fuel : Nat → Store → Bytes → Except DBErr AttrVal
  | 0, _, _ => .error .outOfFuel
  | fuel + 1, s, key =>
      match storeGet s key with
      | none => .error .keyNotFound
      | some raw =>
          if raw.take 3 = strB "nda" then
            match get_db_attr_fuel fuel s (key ++ strB "_dtype") with
            | .ok (.strv dn) => .ok (.nda dn (raw.drop 3))
            | .ok _ => .error .typeError
            | .error e => .error e
          else if raw.take 3 = strB "int" then
            match unpack (raw.drop 3) with
            | some n => .ok (.intv n)
            | none => .error .structError
          else if raw.take 3 = strB "str" then
            .ok (.strv (raw.drop 3))
          else .error .unknownAttributeType

/-- Model of `DBArray.get_db_attr(key)` (fuel 2 covers the one-level
recursion of every value `set_db_attr` can write). -/
def get_db_attr (s : Store) (key : Bytes) : Except DBErr AttrVal :=
  get_db_attr_fuel 2 s key

theorem take3_append (tag b : Bytes) (h : tag.length = 3) :
    (tag ++ b).take 3 = tag := by
  rw [← h, List.take_left]

theorem drop3_append (tag b : Bytes) (h : tag.length = 3) :
    (tag ++ b).drop 3 = b := by
  rw [← h, List.drop_left]

theorem key_ne_key_dtype (key : Bytes) : key ≠ key ++ strB "_dtype" := by
  intro h
  have hlen := congrArg List.length h
  rw [List.length_append] at hlen
  have : (strB "_dtype").length = 6 := rfl
  omega

theorem take3_nda (b : Bytes) : (strB "nda" ++ b).take 3 = strB "nda" :=
  take3_append _ _ rfl

theorem drop3_nda (b : Bytes) : (strB "nda" ++ b).drop 3 = b :=
  drop3_append _ _ rfl

theorem take3_int (b : Bytes) : (strB "int" ++ b).take 3 = strB "int" :=
  take3_append _ _ rfl

theorem drop3_int (b : Bytes) : (strB "int" ++ b).drop 3 = b :=
  drop3_append _ _ rfl

theorem take3_str (b : Bytes) : (strB "str" ++ b).take 3 = strB "str" :=
  take3_append _ _ rfl

theorem drop3_str (b : Bytes) : (strB "str" ++ b).drop 3 = b :=
  drop3_append _ _ rfl

/-- **C6**.  For every attribute name and every supported value — a
numeric buffer, a (64-bit) integer, or a text string — `set_db_attr`
followed by `get_db_attr` on the same key reproduces the value exactly;
for a numeric buffer the element type comes back through the persisted
companion key `key + "_dtype"`.  The store state is the durable content
of the backing database, so the equations also describe a read after
closing and reopening the store. -/
theorem attr_roundtrip (s : Store) (key : Bytes) :
    (∀ dn payload : Bytes,
      get_db_attr (set_db_attr s key (.nda dn payload)).2 key =
        .ok (.nda dn payload)) ∧
    (∀ n : Int, -(2 ^ 63) ≤ n → n < 2 ^ 63 →
      get_db_attr (set_db_attr s key (.intv n)).2 key = .ok (.intv n)) ∧
    (∀ b : Bytes,
      get_db_attr (set_db_attr s key (.strv b)).2 key = .ok (.strv b)) := by
  have hsn : ¬ (strB "str" = strB "nda") := by decide
  have hsi : ¬ (strB "str" = strB "int") := by decide
  have hin : ¬ (strB "int" = strB "nda") := by decide
  refine ⟨?_, ?_, ?_⟩
  · intro dn payload
    have hget : storeGet (set_db_attr s key (.nda dn payload)).2 key =
        some (strB "nda" ++ payload) := storeGet_set_self _ _ _
    have hget' : storeGet (set_db_attr s key (.nda dn payload)).2
        (key ++ strB "_dtype") = some (strB "str" ++ dn) := by
      show storeGet (storeSet _ key _) _ = _
      rw [storeGet_set_ne _ _ _ _ (key_ne_key_dtype key), storeGet_set_self]
    rw [get_db_attr, get_db_attr_fuel, hget, get_db_attr_fuel, hget']
    simp [take3_nda, drop3_nda, take3_str, drop3_str, hsn, hsi]
  · intro n h0 h1
    have hget : storeGet (set_db_attr s key (.intv n)).2 key =
        some (strB "int" ++ pack n) := storeGet_set_self _ _ _
    rw [get_db_attr, get_db_attr_fuel, hget]
    simp [take3_int, drop3_int, hin, unpack_pack n h0 h1]
  · intro b
    have hget : storeGet (set_db_attr s key (.strv b)).2 key =
        some (strB "str" ++ b) := storeGet_set_self _ _ _
    rw [get_db_attr, get_db_attr_fuel, hget]
    simp [take3_str, drop3_str, hsn, hsi]

/-- Witness for C6 at the integer conjunct: key `"k"`, value `5`, empty
store. -/
theorem attr_roundtrip_witness :
    get_db_attr (set_db_attr [] (strB "k") (.intv 5)).2 (strB "k") =
      .ok (.intv 5) :=
  (attr_roundtrip [] (strB "k")).2.1 5 (by norm_num) (by norm_num)

/-- **C7**.  For every attribute name, storing a value whose type is none
of numeric buffer / integer / text string (in particular a bare
floating-point scalar) fails with the unsupported-attribute-type error (a
Python `TypeError` in the source), and the backing store is unchanged: no
bytes are written under the given name or any other key. -/
theorem set_db_attr_unsupported (s : Store) (key : Bytes) :
    (set_db_attr s key .floatv).1 = .error .typeError ∧
    (set_db_attr s key .floatv).2 = s :=
  ⟨rfl, rfl⟩

end DBArray

/-! ## Backend adapters (`storage.py`) -/

namespace Storage

/-- The registered backend kinds: the `DBTYPE` registry in `dbarray.py`
maps `"leveldb"` and `"lmdb"` to their adapter classes (the Redis entry
is commented out and the class unimplemented). -/
inductive DBKind where
  | leveldb
  | lmdb
deriving DecidableEq

/-- Observable outcome of an adapter `get` call. -/
inductive GetResult where
  /-- The stored value. -/
  | val (b : Bytes)
  /-- The Python `None` sentinel — what `lmdb`'s `txn.get` returns by
  default for a missing key. -/
  | noneSentinel
  /-- A raised exception (`KeyError` from `leveldb.LevelDB.Get`). -/
  | err (e : DBArray.DBErr)
deriving DecidableEq

/-- Model of `StorageLevelDB.get` and `StorageLMDB.get` on a store state.
`StorageLevelDB.get` calls `self.hl_db.Get(key)`, which raises `KeyError`
when the key is absent.  `StorageLMDB.get` reads `txt.get(key)` inside a
read transaction — retrying transient `BadRSlotError`s, which the model
(free of concurrent writers) never encounters — and `txn.get` yields its
default `None` for a missing key, so the caller receives the `None`
sentinel rather than an error. -/
def storageGet : DBKind → Store → Bytes → GetResult
  | .leveldb, s, k =>
      match storeGet s k with
      | some v => .val v
      | none => .err .keyNotFound
  | .lmdb, s, k =>
      match storeGet s k with
      | some v => .val v
      | none => .noneSentinel

/-- **C2**, counterexample.  The claim says every backend's `get` fails
with the key-not-found error on a missing key and never returns a
non-error sentinel; but the LMDB adapter returns the `None` sentinel on
the empty store. -/
theorem storage_get_missing_counterexample :
    storageGet .lmdb [] (strB "x") = .noneSentinel ∧
    storageGet .lmdb [] (strB "x") ≠ .err DBArray.DBErr.keyNotFound := by
  decide

/-- **C2**, amended.  Only the LevelDB adapter's `get` fails with
`KeyNotFound` on a missing key; the LMDB adapter instead returns the
`None` sentinel (which callers such as `get_row` silently consume). -/
theorem storage_get_missing (s : Store) (k : Bytes)
    (h : storeGet s k = none) :
    storageGet .leveldb s k = .err .keyNotFound ∧
    storageGet .lmdb s k = .noneSentinel := by
  constructor <;> simp [storageGet, h]

/-- Witness for the amended C2 on the empty store. -/
theorem storage_get_missing_witness :
    storageGet .leveldb [] (strB "x") = .err .keyNotFound ∧
    storageGet .lmdb [] (strB "x") = .noneSentinel :=
  storage_get_missing [] (strB "x") rfl

/-! ### Engine handles and the LMDB handle cache -/

/-- Process-wide adapter state: LMDB's class-level handle cache
`StorageLMDB.DB_MAP` (absolute path → engine handle) together with a
fresh-handle allocator standing for `lmdb.open` / `leveldb.LevelDB`
constructing a brand-new engine handle. -/
structure ProcState where
  dbMap : List (String × Nat)
  nextHandle : Nat
deriving DecidableEq

/-- Model of `os.path.abspath`: canonicalize a path against the process
working directory (already-absolute paths are returned unchanged). -/
def abspath (cwd p : String) : String :=
  if p.toList.head? = some '/' then p else cwd ++ "/" ++ p

/-- Model of `StorageLMDB.__init__(dbpath)`: look up
`os.path.abspath(dbpath)` in the class-level `DB_MAP`; on a miss, open a
new environment and cache it under the absolute path; then adopt the
cached handle.  (The `stat()` liveness check re-opens a dead cached
environment; the model's cached handles are always live, so that branch
is never taken.) -/
def lmdbInit (cwd p : String) (st : ProcState) : Nat × ProcState :=
  let a := abspath cwd p
  match st.dbMap.find? (fun q => q.1 == a) with
  | some q => (q.2, st)
  | none =>
      (st.nextHandle,
        { dbMap := (a, st.nextHandle) :: st.dbMap,
          nextHandle := st.nextHandle + 1 })

/-- Model of `StorageLevelDB.__init__(dbpath)`: unconditionally construct
a fresh `leveldb.LevelDB(dbpath, write_buffer_size=2**30)` handle — the
LevelDB adapter has no cache. -/
def leveldbInit (cwd p : String) (st : ProcState) : Nat × ProcState :=
  (st.nextHandle, { st with nextHandle := st.nextHandle + 1 })

/-- **C9**, counterexample.  The claim says every backend kind reuses the
engine handle when the same path is opened twice in one process; but two
LevelDB adapter constructions on the same path yield two distinct
handles (the second would in reality collide with LevelDB's exclusive
lock). -/
theorem handle_reuse_counterexample :
    (Storage.leveldbInit "/cwd" "p"
        (Storage.leveldbInit "/cwd" "p" ⟨[], 0⟩).2).1 ≠
      (Storage.leveldbInit "/cwd" "p" ⟨[], 0⟩).1 := by
  decide

/-- **C9**, amended.  Only the LMDB adapter reuses handles: two opens
whose paths canonicalize to the same absolute path return the same
cached engine handle; the LevelDB adapter constructs a new handle on
every open. -/
theorem handle_reuse_amended (cwd p q : String) (st : ProcState)
    (h : abspath cwd p = abspath cwd q) :
    ((lmdbInit cwd q (lmdbInit cwd p st).2).1 = (lmdbInit cwd p st).1) ∧
    ((leveldbInit cwd q (leveldbInit cwd p st).2).1 ≠
      (leveldbInit cwd p st).1) := by
  constructor
  · cases hfind : st.dbMap.find? (fun r => r.1 == abspath cwd p) with
    | some entry =>
        have e1 : lmdbInit cwd p st = (entry.2, st) := by
          simp [lmdbInit, hfind]
        have e2 : lmdbInit cwd q st = (entry.2, st) := by
          simp [lmdbInit, ← h, hfind]
        rw [e1, e2]
    | none =>
        have e1 : lmdbInit cwd p st =
            (st.nextHandle,
              ⟨(abspath cwd p, st.nextHandle) :: st.dbMap,
                st.nextHandle + 1⟩) := by
          simp [lmdbInit, hfind]
        rw [e1]
        simp [lmdbInit, ← h]
  · simp [leveldbInit]

/-- Witness for the amended C9: `"db"` and `"/cwd/db"` canonicalize to
the same absolute path, and the second LMDB open returns the handle the
first one allocated. -/
theorem handle_reuse_amended_witness :
    ((lmdbInit "/cwd" "/cwd/db" (lmdbInit "/cwd" "db" ⟨[], 0⟩).2).1 =
      (lmdbInit "/cwd" "db" ⟨[], 0⟩).1) ∧
    ((leveldbInit "/cwd" "/cwd/db"
        (leveldbInit "/cwd" "db" ⟨[], 0⟩).2).1 ≠
      (leveldbInit "/cwd" "db" ⟨[], 0⟩).1) :=
  handle_reuse_amended "/cwd" "db" "/cwd/db" ⟨[], 0⟩ (by decide)

end Storage

/-! ## The `is_valid` probes (`storage.py`) -/

namespace Storage

/-- Structural facts about an on-disk path that the two `is_valid`
probes inspect: whether the path exists, whether its directory listing
contains an entry named exactly `CURRENT` (LevelDB's marker file), and
whether it contains an entry ending in `.mdb` (LMDB's data/lock
files). -/
structure PathProbe where
  pathExists : Bool
  hasCurrentEntry : Bool
  hasMdbEntry : Bool
deriving DecidableEq

/-- Model of `StorageLevelDB.is_valid` (a listing entry equal to
`CURRENT`) and `StorageLMDB.is_valid` (a listing entry ending in
`.mdb`). -/
def is_valid : DBKind → PathProbe → Bool
  | .leveldb, p => p.hasCurrentEntry
  | .lmdb, p => p.hasMdbEntry

/-- Key list of the `DBTYPE` registry (two entries; the iteration order
is irrelevant because the resolution loop only visits kinds other than
the requested one, and with two registered kinds there is exactly one
such). -/
def dbtypeKeys : List DBKind := [.leveldb, .lmdb]

end Storage

/-! ## Backend-kind resolution (`DBArray.__init__`) -/

namespace DBArray

/-- The one registered kind other than the given one. -/
def otherKind : Storage.DBKind → Storage.DBKind
  | .leveldb => .lmdb
  | .lmdb => .leveldb

/-- Outcome of the backend-kind resolution prologue of
`DBArray.__init__` (everything before `self._storage = C_Storage(dbpath)`). -/
inductive InitOutcome where
  /-- Control falls through: `__init__` constructs a storage of kind
  `kind` and, when `loadsMetadata` (the path existed), calls
  `self._loadinfo()`. -/
  | proceed (kind : Storage.DBKind) (loadsMetadata : Bool)
  /-- Control raises before the storage is constructed: the
  `hit_cnt > 1` branch evaluates `'...%s...%d!' % dbpath, hit_cnt`,
  which applies `%` to one argument where the format string needs two
  and raises `TypeError`. -/
  | raisedTypeError
deriving DecidableEq

/-- Number of kinds OTHER than the requested one whose `is_valid`
accepts the path — `hit_cnt` in the source. -/
def probeHits (dbtype : Storage.DBKind) (p : Storage.PathProbe) : Nat :=
  ((Storage.dbtypeKeys.filter (fun t => t != dbtype)).filter
      (fun t => Storage.is_valid t p)).length

/-- Model of the backend-resolution prologue of `DBArray.__init__`.
When the path exists but fails the requested kind's `is_valid`, the
probe loop re-binds `C_Storage` to EVERY other registered kind in turn
(hit or miss), so after the loop `C_Storage` holds the LAST other kind,
while `hit_cnt` counts the matching other kinds.  The `hit_cnt == 0`
and `hit_cnt == 1` branches only log (fatal resp. warning) and fall
through to `self._storage = C_Storage(dbpath)` followed — because the
path exists — by `self._loadinfo()`; the `hit_cnt > 1` branch raises a
`TypeError` out of its malformed `logging.fatal` call before the
storage is constructed. -/
def dbarray_resolve (dbtype : Storage.DBKind) (p : Storage.PathProbe) :
    InitOutcome :=
  if p.pathExists && !(Storage.is_valid dbtype p) then
    let others := Storage.dbtypeKeys.filter (fun t => t != dbtype)
    let finalKind := others.getLast?.getD dbtype
    if probeHits dbtype p > 1 then .raisedTypeError
    else .proceed finalKind true
  else .proceed dbtype p.pathExists

/-- **C1**, counterexample.  An existing path that matches NO registered
kind (no `CURRENT` entry, no `.mdb` entry), opened with requested kind
`lmdb`: the claim says the open must fail with `UnknownBackendFormat`
and load no metadata, but the code merely logs at fatal level and
proceeds — it constructs the LevelDB adapter and goes on to load
metadata. -/
theorem resolve_unknown_counterexample :
    probeHits .lmdb ⟨true, false, false⟩ = 0 ∧
    dbarray_resolve .lmdb ⟨true, false, false⟩ =
      .proceed .leveldb true := by
  decide

/-- **C1**, amended.  On open of an existing path that does not validate
against the requested kind, the store probes the other registered
kind's `is_valid` and counts hits (with two registered kinds, at most
one).  It then ALWAYS proceeds with the other kind and loads metadata:
a matching other kind is adopted with only a warning, and a zero-hit
path merely logs a fatal-level message instead of failing.  (A
`hit_cnt > 1` outcome, unreachable with two registered kinds, would
raise a `TypeError` from a malformed logging call, not
`AmbiguousBackendFormat`.) -/
theorem resolve_amended (dbtype : Storage.DBKind) (p : Storage.PathProbe)
    (hex : p.pathExists = true)
    (hnv : Storage.is_valid dbtype p = false) :
    probeHits dbtype p ≤ 1 ∧
    dbarray_resolve dbtype p = .proceed (otherKind dbtype) true ∧
    (probeHits dbtype p = 1 →
      Storage.is_valid (otherKind dbtype) p = true) := by
  revert hex hnv
  rcases p with ⟨pe, hc, hm⟩
  cases dbtype <;> cases pe <;> cases hc <;> cases hm <;> decide

/-- Witness for the amended C1: an existing LevelDB path (`CURRENT`
present, no `.mdb`) opened with requested kind `lmdb` resolves to
`leveldb` with exactly one hit. -/
theorem resolve_amended_witness :
    probeHits .lmdb ⟨true, true, false⟩ ≤ 1 ∧
    dbarray_resolve .lmdb ⟨true, true, false⟩ =
      .proceed (otherKind .lmdb) true ∧
    (probeHits .lmdb ⟨true, true, false⟩ = 1 →
      Storage.is_valid (otherKind .lmdb) ⟨true, true, false⟩ = true) :=
  resolve_amended .lmdb ⟨true, true, false⟩ (by decide) (by decide)

/-! ## Shape and dtype metadata (`set_shape` / `set_dtype` / `_loadinfo`) -/

/-- Argument forms accepted by `DBArray._get_dtype_name` / `set_dtype`:
Python `None`; a Python type object such as `np.float32` (whose
`type(·)` is `type`), carrying its `__name__`; a `np.dtype` instance,
carrying its canonical `.name`; a Python `str`; and anything else. -/
inductive DtypeArg where
  | pynone
  | pytype (name : Bytes)
  | npdtype (name : Bytes)
  | pystr (s : Bytes)
  | otherArg
deriving DecidableEq

/-- A Python value as returned by `DBArray._get_dtype_name`: a byte
string, or the builtin type object `str` itself (what the string branch
returns), or a raised `Exception`. -/
inductive DtypeNameResult where
  | strval (b : Bytes)
  /-- The builtin class `str` — a type object, not a string. -/
  | strTypeObject
  /-- `Exception('Unrecognized data type: ...')`. -/
  | raised
deriving DecidableEq

/-- Model of `DBArray._get_dtype_name`: `None ↦ 'None'`; a type object
↦ its `__name__`; a `np.dtype` ↦ its `.name`; a `str` argument hits
`return str` — which returns the BUILTIN TYPE OBJECT `str`, not the
argument or its name; anything else raises. -/
def get_dtype_name : DtypeArg → DtypeNameResult
  | .pynone => .strval (strB "None")
  | .pytype n => .strval n
  | .npdtype n => .strval n
  | .pystr _ => .strTypeObject
  | .otherArg => .raised

/-- Model of `DBArray.set_dtype`: compute `_get_dtype_name(dtype)`, set
the in-memory `self.dtype` through `_gen_dtype` (`'None' ↦ None`,
otherwise `np.dtype(name)`, reported here by its canonical name), and
persist the name under the key `"dtype"`.  When `_get_dtype_name`
produced the type object `str` instead of a string, the engine `set`
rejects the non-string value with a `TypeError` and nothing is written;
when it raised, the exception propagates.  The result pairs the control
outcome (carrying the new in-memory dtype on success) with the store
visible afterwards. -/
def set_dtype (s : Store) (arg : DtypeArg) :
    Except DBErr (Option Bytes) × Store :=
  match get_dtype_name arg with
  | .strval b =>
      (.ok (if b = strB "None" then none else some b),
        storeSet s (strB "dtype") b)
  | .strTypeObject => (.error .typeError, s)
  | .raised => (.error .raisedException, s)

/-- **C4**, evaluated at the failing input.  `set_dtype` on a type-name
STRING does not normalize it to the canonical name: `_get_dtype_name`
returns the builtin type object `str` (the `return str` slip), never the
name string, so `set_dtype("float32")` fails with a `TypeError` and
persists nothing — while the `None`, type-object and `np.dtype` branches
behave as the claim states. -/
theorem set_dtype_string_bug :
    get_dtype_name (.pystr (strB "float32")) = .strTypeObject ∧
    (∀ b : Bytes, get_dtype_name (.pystr b) ≠ .strval b) ∧
    (set_dtype [] (.pystr (strB "float32"))).1 = .error .typeError ∧
    (set_dtype [] (.pystr (strB "float32"))).2 = [] ∧
    set_dtype [] .pynone =
      (.ok none, storeSet [] (strB "dtype") (strB "None")) ∧
    set_dtype [] (.npdtype (strB "float32")) =
      (.ok (some (strB "float32")),
        storeSet [] (strB "dtype") (strB "float32")) ∧
    set_dtype [] (.pytype (strB "float32")) =
      (.ok (some (strB "float32")),
        storeSet [] (strB "dtype") (strB "float32")) := by
  refine ⟨rfl, ?_, rfl, rfl, rfl, rfl, rfl⟩
  intro b
  simp [get_dtype_name]

/-- Model of `DBArray.set_shape`: persist both dimensions as packed
8-byte integers under the reserved keys (`nrows` first, then
`ncols`). -/
def set_shape (s : Store) (nrows ncols : Int) : Store :=
  storeSet (storeSet s (strB "nrows") (pack nrows)) (strB "ncols")
    (pack ncols)

/-- Model of the fresh-path branch of `DBArray.__init__`: the engine
creates an empty database at the path, and the store immediately runs
`set_shape((self.nrows, self.ncols))` and `set_dtype(self.dtype)` with
the sentinel fields `nrows = ncols = -1`, `dtype = None`. -/
def dbarray_init_fresh : Store :=
  (set_dtype (set_shape [] (-1) (-1)) .pynone).2

/-- Model of `DBArray._gen_dtype` on a raw byte-string value read from
the store: the sentinel string `'None'` maps to Python `None` (no
dtype); any other name maps to `np.dtype(name)`, reported by its
canonical name. -/
def gen_dtype (b : Bytes) : Option Bytes :=
  if b = strB "None" then none else some b

/-- Model of `DBArray._loadinfo`, parameterized by the backend kind the
store was opened with, because the adapters behave differently on a
missing key (`Storage.storageGet`): LevelDB raises `KeyError`, LMDB
returns the `None` sentinel.  For `"nrows"` and `"ncols"` the sentinel
still fails — `unpack(PACK_NUM_TYPE, None)` raises a `TypeError` — but
for `"dtype"` it silently SUCCEEDS: `None == 'None'` is false, so
`_gen_dtype(None)` evaluates `np.dtype(None)`, which is the default
`float64`, not an error.  A wrong-sized integer buffer fails with
`struct.error`. -/
def loadinfo (kind : Storage.DBKind) (s : Store) :
    Except DBErr (Int × Int × Option Bytes) :=
  match Storage.storageGet kind s (strB "nrows") with
  | .err e => .error e
  | .noneSentinel => .error .typeError
  | .val nb =>
      match unpack nb with
      | none => .error .structError
      | some nrows =>
          match Storage.storageGet kind s (strB "ncols") with
          | .err e => .error e
          | .noneSentinel => .error .typeError
          | .val cb =>
              match unpack cb with
              | none => .error .structError
              | some ncols =>
                  match Storage.storageGet kind s (strB "dtype") with
                  | .err e => .error e
                  | .noneSentinel => .ok (nrows, ncols, some (strB "float64"))
                  | .val db => .ok (nrows, ncols, gen_dtype db)

theorem storageGet_val_iff (kind : Storage.DBKind) (s : Store)
    (k b : Bytes) :
    Storage.storageGet kind s k = .val b ↔ storeGet s k = some b := by
  cases kind <;> cases h : storeGet s k <;> simp [Storage.storageGet, h]

theorem storageGet_leveldb_ne_sentinel (s : Store) (k : Bytes) :
    Storage.storageGet .leveldb s k ≠ .noneSentinel := by
  cases h : storeGet s k <;> simp [Storage.storageGet, h]

/-- **C10**, counterexample.  An LMDB store holding `"nrows"` and
`"ncols"` but NO `"dtype"` key loads its metadata successfully: the
missing key's `None` sentinel flows through `_gen_dtype` into
`np.dtype(None) = float64`.  So "after every successful open all three
reserved metadata keys are present in the backing store" is false. -/
theorem loadinfo_missing_dtype_counterexample :
    loadinfo .lmdb (set_shape [] 0 0) =
      .ok (0, 0, some (strB "float64")) ∧
    storeGet (set_shape [] 0 0) (strB "dtype") = none := by
  constructor
  · rfl
  · rfl

/-- **C10**, amended.  Opening a store at a path that does not yet exist
immediately persists the sentinel metadata: `"nrows"` and `"ncols"` hold
the fixed-width encoding of `-1` (eight `0xff` bytes) and `"dtype"`
holds the literal string `"None"`.  After a successful metadata load of
an existing store, `"nrows"` and `"ncols"` are present under either
backend, and under the LevelDB backend `"dtype"` is present as well;
under the LMDB backend the load can succeed with `"dtype"` absent (the
missing key silently decodes to `float64`). -/
theorem fresh_open_metadata :
    (storeGet dbarray_init_fresh (strB "nrows") = some (pack (-1)) ∧
     storeGet dbarray_init_fresh (strB "ncols") = some (pack (-1)) ∧
     storeGet dbarray_init_fresh (strB "dtype") = some (strB "None") ∧
     pack (-1) = [255, 255, 255, 255, 255, 255, 255, 255]) ∧
    (∀ (kind : Storage.DBKind) (s : Store)
        (info : Int × Int × Option Bytes),
      loadinfo kind s = .ok info →
      (storeGet s (strB "nrows")).isSome ∧
      (storeGet s (strB "ncols")).isSome) ∧
    (∀ (s : Store) (info : Int × Int × Option Bytes),
      loadinfo .leveldb s = .ok info →
      (storeGet s (strB "dtype")).isSome) := by
  refine ⟨by decide, ?_, ?_⟩
  · intro kind s info h
    cases h1 : Storage.storageGet kind s (strB "nrows") with
    | err e => simp [loadinfo, h1] at h
    | noneSentinel => simp [loadinfo, h1] at h
    | val nb =>
        cases hu1 : unpack nb with
        | none => simp [loadinfo, h1, hu1] at h
        | some nr =>
            cases h2 : Storage.storageGet kind s (strB "ncols") with
            | err e => simp [loadinfo, h1, hu1, h2] at h
            | noneSentinel => simp [loadinfo, h1, hu1, h2] at h
            | val cb =>
                have p1 := (storageGet_val_iff kind s (strB "nrows") nb).mp h1
                have p2 := (storageGet_val_iff kind s (strB "ncols") cb).mp h2
                exact ⟨by simp [p1], by simp [p2]⟩
  · intro s info h
    cases h1 : Storage.storageGet .leveldb s (strB "nrows") with
    | err e => simp [loadinfo, h1] at h
    | noneSentinel => exact absurd h1 (storageGet_leveldb_ne_sentinel s _)
    | val nb =>
        cases hu1 : unpack nb with
        | none => simp [loadinfo, h1, hu1] at h
        | some nr =>
            cases h2 : Storage.storageGet .leveldb s (strB "ncols") with
            | err e => simp [loadinfo, h1, hu1, h2] at h
            | noneSentinel => exact absurd h2 (storageGet_leveldb_ne_sentinel s _)
            | val cb =>
                cases hu2 : unpack cb with
                | none => simp [loadinfo, h1, hu1, h2, hu2] at h
                | some nc =>
                    cases h3 : Storage.storageGet .leveldb s (strB "dtype") with
                    | err e => simp [loadinfo, h1, hu1, h2, hu2, h3] at h
                    | noneSentinel =>
                        exact absurd h3 (storageGet_leveldb_ne_sentinel s _)
                    | val db =>
                        have p3 :=
                          (storageGet_val_iff .leveldb s (strB "dtype") db).mp h3
                        simp [p3]

/-- Witness for the amended C10, applied to the store a fresh open
leaves behind: its metadata loads back as `(-1, -1, None)` under either
backend, and all three reserved keys are present. -/
theorem fresh_open_metadata_witness :
    ((storeGet dbarray_init_fresh (strB "nrows")).isSome ∧
     (storeGet dbarray_init_fresh (strB "ncols")).isSome) ∧
    (storeGet dbarray_init_fresh (strB "dtype")).isSome :=
  ⟨fresh_open_metadata.2.1 .lmdb dbarray_init_fresh (-1, -1, none) (by rfl),
   fresh_open_metadata.2.2 dbarray_init_fresh (-1, -1, none) (by rfl)⟩

end DBArray

/-! ## Column-selection writes (`DBArray.__setitem__` via `set_rows`) -/

namespace DBArray

/-- Model of `DBArray.set_rows`: write each row id, in order, with the
matching row of the value matrix (`self.set_row(v_rid[i], arr[i, :])`);
the bytes stored for a row are the concatenation of its element byte
strings (`arr.data`).  The call site below always passes lists of equal
length (numpy would raise on a shorter matrix). -/
def set_rows (s : Store) : List Int → List (List Bytes) → Store
  | [], _ => s
  | _, [] => s
  | r :: rs, row :: rows => set_rows (set_row s r row.flatten) rs rows

/-- Normalization of a (possibly negative) numpy index against a
dimension of size `n`. -/
def normIdx (n : Nat) (j : Int) : Nat :=
  (if j < 0 then (n : Int) + j else j).toNat

/-- Model of the numpy fancy-index assignment `row[v_cid] = vals` on a
single row: assign the listed elements at the listed column positions,
in list order. -/
def overlayRow (n : Nat) (old : List Bytes) (cid : List Int)
    (vals : List Bytes) : List Bytes :=
  (cid.zip vals).foldl (fun acc jv => acc.set (normIdx n jv.1) jv.2) old

/-- Model of the write path of `DBArray.__setitem__` for a composite
`(row-selection, column-selection)` key whose column selection is not
`None`: `rows = self.get_rows(v_rid); rows[:, v_cid] = val;
self.set_rows(v_rid, rows)` — read the selected rows whole, overlay the
new values on the selected columns in memory, and write the rows back
whole.  `none` models a failing row read aborting the write. -/
def setitem_cols (ncols w : Nat) (s : Store) (v_rid v_cid : List Int)
    (val : List (List Bytes)) : Option Store :=
  match get_rows ncols w s v_rid with
  | none => none
  | some olds =>
      some (set_rows s v_rid
        ((olds.zip val).map fun p => overlayRow ncols p.1 v_cid p.2))

/-- Element `j` of the row stored for `rid`, as a read through
`get_row` decodes it. -/
def readElem (ncols w : Nat) (s : Store) (rid : Int) (j : Nat) :
    Option Bytes :=
  match get_row ncols w s rid with
  | none => none
  | some row => row[j]?

theorem overlay_foldl_length (n : Nat) :
    ∀ (l : List (Int × Bytes)) (old : List Bytes),
      (l.foldl (fun acc jv => acc.set (normIdx n jv.1) jv.2) old).length =
        old.length := by
  intro l
  induction l with
  | nil => intro old; rfl
  | cons jv l ih =>
      intro old
      rw [List.foldl_cons, ih, List.length_set]

theorem overlay_foldl_pred (n : Nat) (P : Bytes → Prop) :
    ∀ (l : List (Int × Bytes)) (old : List Bytes),
      (∀ e ∈ old, P e) → (∀ jv ∈ l, P jv.2) →
      ∀ e ∈ l.foldl (fun acc jv => acc.set (normIdx n jv.1) jv.2) old,
        P e := by
  intro l
  induction l with
  | nil => intro old h _; exact h
  | cons jv l ih =>
      intro old hold hl
      rw [List.foldl_cons]
      apply ih
      · intro e he
        rcases List.mem_or_eq_of_mem_set he with h | h
        · exact hold e h
        · exact h ▸ hl jv (by simp)
      · intro x hx
        exact hl x (by simp [hx])

theorem overlay_foldl_getElem_ne (n j : Nat) :
    ∀ (l : List (Int × Bytes)) (old : List Bytes),
      (∀ jv ∈ l, normIdx n jv.1 ≠ j) →
      (l.foldl (fun acc jv => acc.set (normIdx n jv.1) jv.2) old)[j]? =
        old[j]? := by
  intro l
  induction l with
  | nil => intro old _; rfl
  | cons jv l ih =>
      intro old h
      rw [List.foldl_cons, ih _ (fun x hx => h x (by simp [hx])),
        List.getElem?_set_ne (h jv (by simp))]

theorem flatten_length_const (w : Nat) :
    ∀ l : List Bytes, (∀ e ∈ l, e.length = w) →
      l.flatten.length = l.length * w := by
  intro l
  induction l with
  | nil => intro _; simp
  | cons e l ih =>
      intro h
      rw [List.flatten_cons, List.length_append, h e (by simp),
        ih (fun x hx => h x (by simp [hx])), List.length_cons]
      ring

theorem get_row_shape (ncols w : Nat) (s : Store) (rid : Int)
    (row : List Bytes) (h : get_row ncols w s rid = some row) :
    row.length = ncols ∧ ∀ e ∈ row, e.length = w := by
  cases hg : storeGet s (pack rid) with
  | none => simp [get_row, hg] at h
  | some b =>
      simp only [get_row, hg] at h
      by_cases hb : b.length = ncols * w
      · rw [if_pos hb] at h
        have h' := Option.some.inj h
        subst h'
        exact ⟨splitElems_length w ncols b, splitElems_elem_length w ncols b hb⟩
      · rw [if_neg hb] at h
        exact absurd h (by simp)

theorem storeGet_set_rows_not_mem (key : Bytes) :
    ∀ (rids : List Int) (rows : List (List Bytes)) (s : Store),
      (∀ r' ∈ rids, pack r' ≠ key) →
      storeGet (set_rows s rids rows) key = storeGet s key := by
  intro rids
  induction rids with
  | nil => intro rows s _; cases rows <;> rfl
  | cons r rs ih =>
      intro rows s h
      cases rows with
      | nil => rfl
      | cons row rws =>
          rw [set_rows, ih rws _ (fun x hx => h x (by simp [hx]))]
          exact storeGet_set_ne _ _ _ _ (h r (by simp))

theorem storeGet_set_rows_mem (Q : Int → List Bytes → Prop) :
    ∀ (rids : List Int) (rows : List (List Bytes)) (s : Store),
      List.Forall₂ Q rids rows →
      (∀ r' ∈ rids, -(2 ^ 63) ≤ r' ∧ r' < 2 ^ 63) →
      ∀ r : Int, r ∈ rids →
      ∃ row, Q r row ∧
        storeGet (set_rows s rids rows) (pack r) = some row.flatten := by
  intro rids
  induction rids with
  | nil =>
      intro rows s _ _ r hr
      exact absurd hr (by simp)
  | cons r0 rs ih =>
      intro rows s hf hrng r hr
      cases rows with
      | nil => cases hf
      | cons row0 rws =>
          rw [set_rows]
          rcases List.forall₂_cons.mp hf with ⟨hQ0, hftl⟩
          by_cases hmem : r ∈ rs
          · exact ih rws _ hftl (fun x hx => hrng x (by simp [hx])) r hmem
          · have hr0 : r = r0 := by
              rcases List.mem_cons.mp hr with h | h
              · exact h
              · exact absurd h hmem
            subst hr0
            refine ⟨row0, hQ0, ?_⟩
            have hne : ∀ r' ∈ rs, pack r' ≠ pack r := by
              intro r' hr' heq
              have h1 := hrng r' (by simp [hr'])
              have h2 := hrng r (by simp)
              have heq' := pack_injOn r' r h1.1 h1.2 h2.1 h2.2 heq
              exact hmem (heq' ▸ hr')
            rw [storeGet_set_rows_not_mem (pack r) rs rws _ hne]
            exact storeGet_set_self _ _ _

theorem get_rows_forall2_overlay (ncols w : Nat) (s : Store)
    (v_cid : List Int) :
    ∀ (rids : List Int) (olds val : List (List Bytes)),
      get_rows ncols w s rids = some olds →
      val.length = rids.length →
      (∀ vrow ∈ val, ∀ e ∈ vrow, e.length = w) →
      List.Forall₂
        (fun rid row => ∃ old vrow,
          get_row ncols w s rid = some old ∧
          (∀ e ∈ vrow, e.length = w) ∧
          row = overlayRow ncols old v_cid vrow)
        rids ((olds.zip val).map fun p => overlayRow ncols p.1 v_cid p.2) := by
  intro rids
  induction rids with
  | nil =>
      intro olds val hrows _ _
      have h' : ([] : List (List Bytes)) = olds := Option.some.inj hrows
      subst h'
      exact List.Forall₂.nil
  | cons r rs ih =>
      intro olds val hrows hlen hvw
      cases hg : get_row ncols w s r with
      | none => simp [get_rows, hg] at hrows
      | some row =>
          cases hgs : get_rows ncols w s rs with
          | none => simp [get_rows, hg, hgs] at hrows
          | some rest =>
              have holds := hrows
              simp only [get_rows, hg, hgs] at holds
              have holds' := Option.some.inj holds
              subst holds'
              cases val with
              | nil => exact absurd hlen (by simp)
              | cons v0 vtl =>
                  rw [List.zip_cons_cons, List.map_cons]
                  apply List.Forall₂.cons
                  · exact ⟨row, v0, hg, hvw v0 (by simp), rfl⟩
                  · exact ih rest vtl hgs (by simpa using hlen)
                      (fun x hx => hvw x (by simp [hx]))

/-- **C8**.  For every write through a composite key with a non-null
column selection: after the write, every selected row keeps its old
value at every column outside the (normalized) column selection — the
store reads the full target rows first, overlays the new values on the
selected columns in memory, and writes the rows back whole. -/
theorem setitem_preserves_untouched_columns (ncols w : Nat)
    (s s' : Store) (v_rid v_cid : List Int) (val : List (List Bytes))
    (hset : setitem_cols ncols w s v_rid v_cid val = some s')
    (hvallen : val.length = v_rid.length)
    (hvalw : ∀ vrow ∈ val, ∀ e ∈ vrow, e.length = w)
    (hrng : ∀ r' ∈ v_rid, -(2 ^ 63) ≤ r' ∧ r' < 2 ^ 63)
    (r : Int) (hr : r ∈ v_rid) (j : Nat)
    (hout : ∀ c ∈ v_cid, normIdx ncols c ≠ j) :
    readElem ncols w s' r j = readElem ncols w s r j := by
  cases hrows : get_rows ncols w s v_rid with
  | none => simp [setitem_cols, hrows] at hset
  | some olds =>
      have hs' : s' = set_rows s v_rid
          ((olds.zip val).map fun p => overlayRow ncols p.1 v_cid p.2) := by
        have h := hset
        simp only [setitem_cols, hrows] at h
        exact (Option.some.inj h).symm
      subst hs'
      have hf := get_rows_forall2_overlay ncols w s v_cid v_rid olds val
        hrows hvallen hvalw
      obtain ⟨row, hQ, hstore⟩ :=
        storeGet_set_rows_mem _ v_rid _ s hf hrng r hr
      obtain ⟨old, vrow, hold, hvroww, hroweq⟩ := hQ
      obtain ⟨holdlen, holdw⟩ := get_row_shape ncols w s r old hold
      have hrowlen : row.length = ncols := by
        rw [hroweq, overlayRow, overlay_foldl_length, holdlen]
      have hroww : ∀ e ∈ row, e.length = w := by
        rw [hroweq]
        apply overlay_foldl_pred ncols (fun e => e.length = w) _ old holdw
        intro jv hjv
        exact hvroww jv.2 (List.of_mem_zip hjv).2
      have hflatlen : row.flatten.length = ncols * w := by
        rw [flatten_length_const w row hroww, hrowlen]
      have hget' : get_row ncols w
          (set_rows s v_rid
            ((olds.zip val).map fun p => overlayRow ncols p.1 v_cid p.2))
          r = some row := by
        simp only [get_row, hstore, hflatlen, if_pos]
        rw [← hrowlen]
        exact congrArg some (splitElems_of_flatten w row hroww)
      have hj : row[j]? = old[j]? := by
        rw [hroweq, overlayRow]
        apply overlay_foldl_getElem_ne
        intro jv hjv
        exact hout jv.1 (List.of_mem_zip hjv).1
      simp [readElem, hget', hold, hj]

end DBArray

namespace DBArray

/-- Witness for C8: a one-row, two-column byte store; writing element
`[7]` into column 0 of row 0 through the composite-key path leaves
column 1 unchanged. -/
theorem setitem_preserves_untouched_columns_witness :
    readElem 2 1 (set_row (set_row [] 0 [10, 11]) 0 [7, 11]) 0 1 =
      readElem 2 1 (set_row [] 0 [10, 11]) 0 1 :=
  setitem_preserves_untouched_columns 2 1 (set_row [] 0 [10, 11])
    (set_row (set_row [] 0 [10, 11]) 0 [7, 11]) [0] [0] [[[7]]]
    (by rfl) rfl (by decide) (by decide) 0 (by decide) 1 (by decide)

end DBArray
